import Mathlib

/-!
Verification of the pysuerga static-site build pipeline.

Shallow embedding of `src/pysuerga.py` (a single-file static-site
generator: load a YAML context, enrich it through four preprocessors,
walk the source tree, render or copy each file) together with proofs
of the testable properties stated in its specification.

External libraries (`requests`, `feedparser`, `markdown`, `jinja2`,
`os.walk`) are modelled as explicit inputs: an HTTP response is a
record of status code and decoded JSON body, a parsed feed is a record
of feed title and entries, the Markdown converter and the template
renderer are function parameters, and the directory walk is given as
the listing `os.walk` would produce. Everything the Python code itself
computes is embedded and proved about.
-/

namespace Pysuerga

/-! ## Navbar shaping (`Preprocessors.navbar_add_info`, lines 19-27)

A navbar item is a dict with a `name` and a `target`; the target is
either a single link or a list of sub-items (the code only inspects it
with `isinstance(item['target'], list)`, so sub-item contents are kept
abstract). Names are modelled as `List Char` so that the character
level transforms `str.replace` / `str.lower` are computable. -/

/-- A navbar `target` value: either a single link (a string in the
YAML) or a list of sub-items. -/
inductive NavTarget where
  | single (url : String)
  | multiple (subitems : List (String × String))
  deriving DecidableEq, Repr

/-- The test `isinstance(item['target'], list)` from line 23. -/
def NavTarget.isPyList : NavTarget → Bool
  | .single _ => false
  | .multiple _ => true

/-- A navbar item as read from the configuration: keys `name` and
`target`. -/
structure NavItem where
  name : List Char
  target : NavTarget
  deriving DecidableEq, Repr

/-- A navbar item after enrichment: the original keys plus
`has_subitems` and `slug` (line 22: `dict(item, has_subitems=...,
slug=...)`). -/
structure NavItemInfo where
  name : List Char
  target : NavTarget
  has_subitems : Bool
  slug : List Char
  deriving DecidableEq, Repr

/-- Python `s.replace(old, new)` for a one-character pattern, which is
what line 25 calls (`item['name'].replace(' ', '-')`): every
occurrence of `old` is replaced by `new`. -/
def pyReplaceChar (old new : Char) (s : List Char) : List Char :=
  s.map fun c => if c = old then new else c

/-- Python `s.lower()` on the ASCII range (line 26). -/
def pyLower (s : List Char) : List Char :=
  s.map Char.toLower

/-- Embeds `Preprocessors.navbar_add_info` (lines 19-27): rewrite each navbar
item in place, adding `has_subitems` and
`slug = name.replace(' ', '-').lower()`. -/
def navbar_add_info (navbar : List NavItem) : List NavItemInfo :=
  navbar.map fun item =>
    { name := item.name
      target := item.target
      has_subitems := item.target.isPyList
      slug := pyLower (pyReplaceChar ' ' '-' item.name) }

/-! ## HTTP responses

`requests.get` results are modelled as a status code plus the decoded
JSON body; `resp.raise_for_status()` raises an `HTTPError` exactly
when the status code is in the 4xx or 5xx range. -/

/-- The status codes for which `requests.Response.raise_for_status`
raises (4xx client errors and 5xx server errors). -/
def isHttpErrorCode (code : Nat) : Bool :=
  400 ≤ code && code < 600

/-! ## Release lookup (`Preprocessors.home_add_releases`, lines 60-82) -/

/-- One asset of a GitHub release, as used by line 80. -/
structure Asset where
  browser_download_url : String
  deriving DecidableEq, Repr

/-- One release object of the GitHub releases listing, restricted to
the keys the code reads. Tags are `List Char` so that `lstrip` is
computable; `published_at` stays the raw timestamp string (the
`datetime.strptime` parse is an external-library step that none of the
claims inspect). -/
structure Release where
  tag_name : List Char
  prerelease : Bool
  published_at : String
  assets : List Asset
  deriving DecidableEq, Repr

/-- The response of `GET /repos/pandas-dev/pandas/releases`. -/
structure ReleasesResp where
  status_code : Nat
  body : List Release
  deriving DecidableEq, Repr

/-- One entry appended to `context['releases']` (lines 76-81). -/
structure ReleaseEntry where
  name : List Char
  tag : List Char
  published : String
  url : String
  deriving DecidableEq, Repr

/-- The loop body of lines 74-81: build the entry for one release.
`lstrip('v')` removes every leading `'v'`; the url is the first
asset's download URL when assets exist and `''` otherwise. -/
def releaseEntryOf (release : Release) : ReleaseEntry :=
  { name := release.tag_name.dropWhile (fun c => c = 'v')
    tag := release.tag_name
    published := release.published_at
    url := match release.assets with
           | [] => ""
           | a :: _ => a.browser_download_url }

/-- Embeds `Preprocessors.home_add_releases` (lines 60-82), returning the
value stored at `context['releases']`, or the raised `HTTPError`.
`context['releases'] = []` is set before the request, so a 403
answer returns the context with an empty release list; any other
error status raises; otherwise the loop skips prereleases and appends
an entry per remaining release, in listing order. -/
def home_add_releases (resp : ReleasesResp) : Except String (List ReleaseEntry) :=
  if resp.status_code = 403 then
    .ok []
  else if isHttpErrorCode resp.status_code then
    .error "HTTPError"
  else
    .ok (resp.body.foldl
      (fun acc release =>
        if release.prerelease then acc
        else acc ++ [releaseEntryOf release])
      [])

/-- Modelled from the spec (for comparison with the code): "strip a
single leading version-prefix character from the tag", i.e. remove one
leading `'v'` when present. -/
def specStripSingleV : List Char → List Char
  | 'v' :: rest => rest
  | s => s

/-! ## Blog aggregation (`Preprocessors.blog_add_posts`, lines 29-46)

`feedparser.parse` is external; a parsed feed is modelled as its feed
title plus its entry list. `time.mktime(entry.published_parsed)`
followed by `datetime.datetime.fromtimestamp` converts the entry's
publication time to a timestamp; the composite is modelled as the
timestamp itself (a natural number), which preserves the ordering the
sort key uses. Python `list.sort` is stable; it is modelled by
`List.mergeSort`, with `reverse=True` folded into the comparison. -/

/-- One entry of a parsed feed, restricted to the keys read by lines
37-43. -/
structure FeedEntry where
  title : String
  author : String
  published : Nat
  link : String
  description : String
  summary : String
  deriving DecidableEq, Repr

/-- A parsed feed: `feed_data['feed']['title']` plus
`feed_data.entries`. -/
structure Feed where
  title : String
  entries : List FeedEntry
  deriving DecidableEq, Repr

/-- The post dict built for one entry (lines 37-43). -/
structure BlogPost where
  title : String
  author : String
  published : Nat
  feed : String
  link : String
  description : String
  summary : String
  deriving DecidableEq, Repr

/-- Lines 37-43: the post record for one entry of a feed. -/
def postOfEntry (feedTitle : String) (e : FeedEntry) : BlogPost :=
  { title := e.title
    author := e.author
    published := e.published
    feed := feedTitle
    link := e.link
    description := e.description
    summary := e.summary }

/-- Embeds `Preprocessors.blog_add_posts` (lines 29-46), returning the value
stored at `context['blog']['posts']`: collect every entry of every
feed in order, sort by `published` descending (`reverse=True`), keep
the first `num_posts`. -/
def blog_add_posts (feeds : List Feed) (num_posts : Nat) : List BlogPost :=
  let posts := feeds.flatMap fun fd => fd.entries.map (postOfEntry fd.title)
  (posts.mergeSort fun a b => b.published ≤ a.published).take num_posts

/-! ## Maintainer lookup (`Preprocessors.maintainers_add_info`,
lines 48-58)

`requests.get(f'https://api.github.com/users/{user}')` is modelled as
a function from username to response; the decoded profile JSON is kept
abstract as a string payload. -/

/-- The response of `GET /users/{user}`: status code plus decoded
profile payload. -/
structure UserResp where
  status_code : Nat
  json : String
  deriving DecidableEq, Repr

/-- The loop of lines 51-57 with the accumulated
`context['maintainers']['people']` made explicit: a 403 returns what
was accumulated so far, any other error status raises, a success
appends the profile and continues. -/
def maintainers_loop (lookup : String → UserResp) :
    List String → List String → Except String (List String)
  | [], acc => .ok acc
  | user :: rest, acc =>
    let resp := lookup user
    if resp.status_code = 403 then .ok acc
    else if isHttpErrorCode resp.status_code then .error "HTTPError"
    else maintainers_loop lookup rest (acc ++ [resp.json])

/-- Embeds `Preprocessors.maintainers_add_info` (lines 48-58), returning the
value stored at `context['maintainers']['people']`, or the raised
`HTTPError`. -/
def maintainers_add_info (lookup : String → UserResp) (active : List String) :
    Except String (List String) :=
  maintainers_loop lookup active []

/-! ## The preprocessor loop of `get_context` (lines 85-96)

The YAML load and the `kwargs` merge produce the initial context; the
claims concern the loop of lines 91-94. The context is modelled as a
string-keyed mapping (an association list), and a preprocessor as a
named Python function that either returns a context or returns `None`
(falls off the end) — hence `Ctx → Option Ctx`. The `assert` of line
94 raising `AssertionError` with the message built on line 93 is
modelled as the error case. -/

/-- The context mapping threaded through the preprocessors, modelled
as an association list (so that emptiness of the mapping is
observable). -/
abbrev Ctx := List (String × String)

/-- Lines 91-94 of `get_context`: fold the preprocessors, aborting
with `f'{preprocessor.__name__} is missing the return statement'`
when one returns `None`. Each list element is (`__name__`, function). -/
def run_preprocessors : List (String × (Ctx → Option Ctx)) → Ctx → Except String Ctx
  | [], context => .ok context
  | (name, f) :: rest, context =>
    match f context with
    | none => .error (name ++ " is missing the return statement")
    | some context2 => run_preprocessors rest context2

/-! ## Source walker (`get_source_files`, lines 99-103)

`os.walk(source_path)` is external; its output is modelled as the
listing it produces, one entry per directory, each given as the
directory's path components relative to `source_path` (the root is
`[]`) together with its filenames. Line 101 then computes
`os.path.relpath(root, source_path)` — which is `'.'` for the root and
the `'/'`-joined components otherwise — and line 103 joins it with the
filename; `os.path.join(a, b)` for a nonempty relative `b` is
`a ++ "/" ++ b`. -/

/-- Embeds `os.path.relpath(root, source_path)` for a walked directory given
by its components relative to the source root. -/
def relpathOf (comps : List String) : String :=
  if comps = [] then "." else String.intercalate "/" comps

/-- Embeds `get_source_files` (lines 99-103): yield
`os.path.join(relpath(root), fname)` for every file of every walked
directory. -/
def get_source_files (walk : List (List String × List String)) : List String :=
  walk.flatMap fun entry =>
    entry.2.map fun fname => relpathOf entry.1 ++ "/" ++ fname

/-! ## Renderer/copier: the file loop of `main` (lines 128-155)

File contents are strings; the source tree is the list of
`(relative path, content)` pairs in walk order. `markdown.markdown`
(with the `toc`/`tables`/`fenced_code` extensions) and the Jinja2
render `jinja_env.from_string(content).render(**context)` are external
libraries, taken as function parameters `md` and `render` (the
enriched context is fixed for the whole loop, so it is folded into
`render`). The output is the list of `(path, content)` pairs written
to the target directory. -/

/-- Index of the last occurrence of `c` in the list, starting the
count at `i` (helper for `os.path.splitext`). -/
def lastIndexFrom (c : Char) : List Char → Nat → Option Nat
  | [], _ => none
  | ch :: rest, i =>
    match lastIndexFrom c rest (i + 1) with
    | some j => some j
    | none => if ch = c then some i else none

/-- Embeds `os.path.splitext` (posixpath): split at the last `'.'` of the
final component, unless every character of the final component before
that dot is itself a `'.'` (leading dots do not start an extension).
Mirrors the CPython implementation: `sepIndex = p.rfind('/')`,
`dotIndex = p.rfind('.')`, split only when `dotIndex > sepIndex` and
some character strictly between them differs from `'.'`. -/
def splitext (p : String) : String × String :=
  let cs := p.data
  let sep : Int := match lastIndexFrom '/' cs 0 with
                   | some i => (i : Int)
                   | none => -1
  let dot : Int := match lastIndexFrom '.' cs 0 with
                   | some i => (i : Int)
                   | none => -1
  if sep < dot then
    let nameStart := (sep + 1).toNat
    if ((cs.drop nameStart).take (dot.toNat - nameStart)).any (fun ch => ch ≠ '.') then
      (String.mk (cs.take dot.toNat), String.mk (cs.drop dot.toNat))
    else (p, "")
  else (p, "")

/-- Lines 145-148: wrap a converted Markdown body in the fixed layout
template reference. -/
def layoutWrap (body : String) : String :=
  "\x7b% extends \"layout.html\" %\x7d\x7b% block body %\x7d" ++ body ++ "\x7b% endblock %\x7d"

/-- The file loop of `main` (lines 128-155): skip files whose walked
path is in the ignore list; render `.html` files in place and `.md`
files through `markdown` plus the layout wrapper, writing to the
stem with the `.html` extension; copy every other file unchanged to
the same relative path. -/
def processFiles (ignore : List String) (md render : String → String) :
    List (String × String) → List (String × String)
  | [] => []
  | (fname, content) :: rest =>
    if fname ∈ ignore then
      processFiles ignore md render rest
    else
      let extension := (splitext fname).2
      if extension = ".html" ∨ extension = ".md" then
        let content2 := if extension = ".md" then layoutWrap (md content) else content
        ((splitext fname).1 ++ ".html", render content2) :: processFiles ignore md render rest
      else
        (fname, content) :: processFiles ignore md render rest

/-! ## Driver (`main`, lines 106-155, and the entry point,
lines 158-170)

`main` is annotated `-> int` and the entry point calls
`sys.exit(main(...))`, but the function body ends with the file loop
and has **no** return statement: a completed run returns `None`. The
model returns the written output files together with that return
value. `sys.exit(None)` exits with status 0; `sys.exit(n)` for an int
uses `n`. -/

/-- Embeds `main` (lines 106-155): the files written to the target directory,
paired with the function's return value — always `none`, because the
Python function falls off the end of the file loop without a `return`. -/
def pysuergaMain (ignore : List String) (md render : String → String)
    (files : List (String × String)) : List (String × String) × Option Int :=
  (processFiles ignore md render files, none)

/-- The process exit status produced by `sys.exit` (lines 168-170):
`sys.exit(None)` means success (0); `sys.exit(n)` uses `n`. -/
def sysExitCode : Option Int → Int
  | none => 0
  | some n => n

/-! ### Concrete inputs used by the witnesses -/

/-- A profile lookup in which the second configured maintainer hits
the rate limit. -/
def rateLimitedLookup (u : String) : UserResp :=
  if u = "bob" then ⟨403, "bob-profile"⟩ else ⟨200, u ++ "-profile"⟩

/-- A profile lookup in which the second configured maintainer hits a
server error. -/
def erroringLookup (u : String) : UserResp :=
  if u = "bob" then ⟨500, "bob-profile"⟩ else ⟨200, u ++ "-profile"⟩

/-- A preprocessor that returns the *empty* mapping — a genuine dict,
so not `None`. -/
def emptyStep : String × (Ctx → Option Ctx) := ("empty_step", fun _ => some [])

/-- A preprocessor that returns its context unchanged. -/
def okStep : String × (Ctx → Option Ctx) := ("ok_step", fun c => some c)

/-- A preprocessor that falls off the end without a return statement,
i.e. returns `None`. -/
def badStep : String × (Ctx → Option Ctx) := ("bad_step", fun _ => none)

/-! ## Helper lemmas -/

theorem char_ofNat_toNat (n : Nat) (h : n.isValidChar) : (Char.ofNat n).toNat = n := by
  rw [Char.ofNat, dif_pos h]
  rfl

theorem toLower_ne_space (c : Char) (h : c ≠ ' ') : Char.toLower c ≠ ' ' := by
  unfold Char.toLower
  by_cases hc : c.toNat ≥ 65 ∧ c.toNat ≤ 90
  · rw [if_pos hc]
    intro he
    have h32 := congrArg Char.toNat he
    rw [char_ofNat_toNat] at h32
    · have hs : (' ').toNat = 32 := by decide
      omega
    · exact Or.inl (by omega)
  · rw [if_neg hc]
    exact h

theorem toLower_if_space (c : Char) :
    Char.toLower (if c = ' ' then '-' else c)
      = if Char.toLower c = ' ' then '-' else Char.toLower c := by
  by_cases h : c = ' '
  · subst h
    decide
  · rw [if_neg h, if_neg (toLower_ne_space c h)]

/-- Applying `lower` after `replace(' ', '-')` agrees with `replace` after
`lower`: lowercasing neither creates nor destroys spaces. -/
theorem pyLower_pyReplaceChar (s : List Char) :
    pyLower (pyReplaceChar ' ' '-' s) = pyReplaceChar ' ' '-' (pyLower s) := by
  unfold pyLower pyReplaceChar
  rw [List.map_map, List.map_map]
  apply List.map_congr_left
  intro c _
  exact toLower_if_space c

/-- The release loop's fold appends the entries of the non-prerelease
releases, in order. -/
theorem releases_foldl (l : List Release) (acc : List ReleaseEntry) :
    l.foldl
        (fun acc release =>
          if release.prerelease then acc else acc ++ [releaseEntryOf release])
        acc
      = acc ++ (l.filter fun r => !r.prerelease).map releaseEntryOf := by
  induction l generalizing acc with
  | nil => simp
  | cons r rest ih =>
    cases hr : r.prerelease with
    | true => simp [List.foldl_cons, hr, ih, List.filter_cons]
    | false => simp [List.foldl_cons, hr, ih, List.filter_cons]

/-! ## Claims -/

/-- Claim C2: after `navbar_add_info`, every navbar item's `slug` is its
`name` lowercased with spaces replaced by hyphens, `has_subitems`
holds iff the item's `target` is a list, and the items' names and
targets are preserved in order. -/
theorem navbar_add_info_spec (navbar : List NavItem) (e : NavItemInfo)
    (he : e ∈ navbar_add_info navbar) :
    e.slug = pyReplaceChar ' ' '-' (pyLower e.name) ∧
    (e.has_subitems = true ↔ ∃ subs, e.target = NavTarget.multiple subs) ∧
    ((navbar_add_info navbar).map fun x => (x.name, x.target))
      = navbar.map fun item => (item.name, item.target) := by
  refine ⟨?_, ?_, ?_⟩
  · obtain ⟨item, _, rfl⟩ := List.mem_map.mp he
    exact pyLower_pyReplaceChar item.name
  · obtain ⟨item, _, rfl⟩ := List.mem_map.mp he
    cases item.target <;> simp [navbar_add_info, NavTarget.isPyList]
  · unfold navbar_add_info
    rw [List.map_map]
    rfl

/-- Witness for C2 at the navbar item `{name: "About Us",
target: "/about"}`. -/
theorem navbar_add_info_spec_witness :
    ("about-us".data : List Char) = pyReplaceChar ' ' '-' (pyLower "About Us".data) := by
  exact (navbar_add_info_spec [⟨"About Us".data, .single "/about"⟩]
    ⟨"About Us".data, .single "/about", false, "about-us".data⟩ (by decide)).1

/-- Claim C1 counterexample: the code strips *every* leading `'v'` from
a tag (`lstrip('v')`), not a single one. On a successful listing whose
only release is the non-prerelease `vv1.2.0`, the produced display
name is `1.2.0`, while stripping a single leading `'v'` would give
`v1.2.0`. -/
theorem home_add_releases_single_strip_cex :
    home_add_releases ⟨200, [⟨"vv1.2.0".data, false, "2020-01-03T00:00:00Z", []⟩]⟩
        = Except.ok [⟨"1.2.0".data, "vv1.2.0".data, "2020-01-03T00:00:00Z", ""⟩] ∧
    ("1.2.0".data : List Char) ≠ specStripSingleV "vv1.2.0".data := by
  exact ⟨rfl, by decide⟩

/-- Claim C1 (amended): on a successful (non-403, non-error) listing,
the release list is exactly the non-prerelease releases in order, each
enriched by `releaseEntryOf` — display name the tag with **all**
leading `'v'` characters stripped, url the first asset's download URL
or `""` (both visible in `releaseEntryOf`); in particular every
entry's name is its tag `lstrip`-ed of `'v'`. -/
theorem home_add_releases_ok (resp : ReleasesResp) (out : List ReleaseEntry)
    (h403 : resp.status_code ≠ 403)
    (hok : home_add_releases resp = Except.ok out) :
    out = (resp.body.filter fun r => !r.prerelease).map releaseEntryOf ∧
    ∀ e ∈ out, e.name = e.tag.dropWhile (fun c => c = 'v') := by
  unfold home_add_releases at hok
  rw [if_neg h403] at hok
  by_cases herr : isHttpErrorCode resp.status_code = true
  · rw [if_pos herr] at hok
    cases hok
  · rw [if_neg herr] at hok
    injection hok with h1
    rw [releases_foldl, List.nil_append] at h1
    subst h1
    refine ⟨rfl, ?_⟩
    intro e he
    obtain ⟨r, _, rfl⟩ := List.mem_map.mp he
    rfl

/-- Witness for the amended C1 on a listing mixing the non-prerelease
`vv1.2.0` (no assets) with the prerelease `v2.0rc1`. -/
theorem home_add_releases_ok_witness :
    ([⟨"1.2.0".data, "vv1.2.0".data, "t", ""⟩] : List ReleaseEntry)
      = (([⟨"vv1.2.0".data, false, "t", []⟩, ⟨"v2.0rc1".data, true, "t", []⟩] :
            List Release).filter fun r => !r.prerelease).map releaseEntryOf := by
  exact (home_add_releases_ok
    ⟨200, [⟨"vv1.2.0".data, false, "t", []⟩, ⟨"v2.0rc1".data, true, "t", []⟩]⟩
    [⟨"1.2.0".data, "vv1.2.0".data, "t", ""⟩] (by decide) rfl).1

/-- Claim C7: a 403 answer to the release-listing request makes
`home_add_releases` return the context with `releases` set to the
empty list, whatever the response body holds, and no error is
raised. -/
theorem home_add_releases_rate_limited (resp : ReleasesResp)
    (h : resp.status_code = 403) :
    home_add_releases resp = Except.ok [] := by
  unfold home_add_releases
  rw [if_pos h]

/-- Witness for C7: a 403 response whose body even carries a release
still yields the empty release list. -/
theorem home_add_releases_rate_limited_witness :
    home_add_releases ⟨403, [⟨"v9.0".data, false, "t", []⟩]⟩ = Except.ok [] :=
  home_add_releases_rate_limited ⟨403, [⟨"v9.0".data, false, "t", []⟩]⟩ rfl

/-- Claim C3: the aggregated blog post list is sorted by publication
time descending and its length is the minimum of the total number of
entries across all feeds and the configured `num_posts`. -/
theorem blog_add_posts_spec (feeds : List Feed) (num_posts : Nat) :
    (blog_add_posts feeds num_posts).Pairwise
        (fun a b => b.published ≤ a.published) ∧
    (blog_add_posts feeds num_posts).length
      = min ((feeds.map fun fd => fd.entries.length).sum) num_posts := by
  constructor
  · have htrans : ∀ (a b c : BlogPost),
        (fun a b : BlogPost => decide (b.published ≤ a.published)) a b = true →
        (fun a b : BlogPost => decide (b.published ≤ a.published)) b c = true →
        (fun a b : BlogPost => decide (b.published ≤ a.published)) a c = true := by
      intro a b c hab hbc
      simp only [decide_eq_true_eq] at hab hbc ⊢
      omega
    have htotal : ∀ (a b : BlogPost),
        ((fun a b : BlogPost => decide (b.published ≤ a.published)) a b ||
         (fun a b : BlogPost => decide (b.published ≤ a.published)) b a) = true := by
      intro a b
      simp only [Bool.or_eq_true, decide_eq_true_eq]
      omega
    have hsorted := List.sorted_mergeSort htrans htotal
      (feeds.flatMap fun fd => fd.entries.map (postOfEntry fd.title))
    have htake := List.Pairwise.sublist (List.take_sublist num_posts _) hsorted
    exact htake.imp (fun h => of_decide_eq_true h)
  · unfold blog_add_posts
    rw [List.length_take, List.length_mergeSort, List.length_flatMap]
    have hlen : (List.map
        (List.length ∘ fun fd => fd.entries.map (postOfEntry fd.title)) feeds)
          = feeds.map fun fd => fd.entries.length := by
      apply List.map_congr_left
      intro fd _
      simp
    rw [hlen]
    omega

/-- The maintainer loop, generalized over the accumulator: with the
first `k` lookups succeeding, a 403 at index `k` returns the
accumulator extended by the first `k` profiles, and a non-403 error
status at index `k` raises `HTTPError`. -/
theorem maintainers_loop_spec (lookup : String → UserResp) (active : List String) :
    ∀ (k : Nat) (acc : List String), k < active.length →
      (∀ i, i < k → (lookup (active.getD i "")).status_code ≠ 403 ∧
          isHttpErrorCode (lookup (active.getD i "")).status_code = false) →
      ((lookup (active.getD k "")).status_code = 403 →
          maintainers_loop lookup active acc
            = Except.ok (acc ++ (active.take k).map fun u => (lookup u).json)) ∧
      ((lookup (active.getD k "")).status_code ≠ 403 →
          isHttpErrorCode (lookup (active.getD k "")).status_code = true →
          maintainers_loop lookup active acc = Except.error "HTTPError") := by
  induction active with
  | nil =>
    intro k acc hk
    simp at hk
  | cons u rest ih =>
    intro k acc hk hpre
    cases k with
    | zero =>
      constructor
      · intro h403
        rw [List.getD_cons_zero] at h403
        unfold maintainers_loop
        rw [if_pos h403]
        simp
      · intro hne herr
        rw [List.getD_cons_zero] at hne herr
        unfold maintainers_loop
        rw [if_neg hne, if_pos herr]
    | succ k =>
      have h0 := hpre 0 (Nat.succ_pos k)
      rw [List.getD_cons_zero] at h0
      have hstep := ih k (acc ++ [(lookup u).json])
        (by simpa using hk)
        (fun i hi => by
          have hsucc := hpre (i + 1) (Nat.succ_lt_succ hi)
          rwa [List.getD_cons_succ] at hsucc)
      constructor
      · intro h403
        rw [List.getD_cons_succ] at h403
        unfold maintainers_loop
        rw [if_neg h0.1, if_neg (by rw [h0.2]; simp)]
        rw [hstep.1 h403]
        simp
      · intro hne herr
        rw [List.getD_cons_succ] at hne herr
        unfold maintainers_loop
        rw [if_neg h0.1, if_neg (by rw [h0.2]; simp)]
        exact hstep.2 hne herr

/-- Claim C4: if the first `k` profile lookups succeed, a rate-limit
(403) answer for the `(k+1)`-st username makes
`maintainers_add_info` return exactly the first `k` profiles, in
input order, ignoring every later username; a non-rate-limit error
answer there aborts with `HTTPError` instead. -/
theorem maintainers_add_info_spec (lookup : String → UserResp) (active : List String)
    (k : Nat) (hk : k < active.length)
    (hpre : ∀ i, i < k → (lookup (active.getD i "")).status_code ≠ 403 ∧
        isHttpErrorCode (lookup (active.getD i "")).status_code = false) :
    ((lookup (active.getD k "")).status_code = 403 →
        maintainers_add_info lookup active
          = Except.ok ((active.take k).map fun u => (lookup u).json)) ∧
    ((lookup (active.getD k "")).status_code ≠ 403 →
        isHttpErrorCode (lookup (active.getD k "")).status_code = true →
        maintainers_add_info lookup active = Except.error "HTTPError") := by
  have h := maintainers_loop_spec lookup active k [] hk hpre
  simpa [maintainers_add_info] using h

/-- Witness for C4: with `["alice", "bob", "carol"]` active and the
lookup rate-limited at `bob`, exactly alice's profile is returned;
with a 500 at `bob` instead, the run aborts with `HTTPError`. -/
theorem maintainers_add_info_spec_witness :
    maintainers_add_info rateLimitedLookup ["alice", "bob", "carol"]
        = Except.ok ["alice-profile"] ∧
    maintainers_add_info erroringLookup ["alice", "bob", "carol"]
        = Except.error "HTTPError" := by
  constructor
  · exact (maintainers_add_info_spec rateLimitedLookup ["alice", "bob", "carol"] 1
      (by decide)
      (fun i hi => by
        have hi0 : i = 0 := by omega
        subst hi0
        exact ⟨by decide, by decide⟩)).1 (by decide)
  · exact (maintainers_add_info_spec erroringLookup ["alice", "bob", "carol"] 1
      (by decide)
      (fun i hi => by
        have hi0 : i = 0 := by omega
        subst hi0
        exact ⟨by decide, by decide⟩)).2 (by decide) (by decide)

/-- Claim C5 counterexample: the loop of `get_context` checks only
`context is not None` — the *empty* mapping is accepted and the run
continues, so "must return a non-empty mapping" is not what the
caller enforces. Here a preprocessor returns the empty dict and the
loop still succeeds (and even hands the empty context on). -/
theorem run_preprocessors_accepts_empty_cex :
    run_preprocessors [emptyStep] [("k", "v")] = Except.ok [] ∧
    run_preprocessors [emptyStep] [("k", "v")]
      ≠ Except.error "empty_step is missing the return statement" := by
  refine ⟨rfl, fun h => ?_⟩
  rw [show run_preprocessors [emptyStep] [("k", "v")] = Except.ok [] from rfl] at h
  exact Except.noConfusion h

/-- Claim C5 (amended): each preprocessor must return a mapping
(possibly empty); a preprocessor that returns nothing (`None`) aborts
the run with `AssertionError` carrying the diagnostic
`'{name} is missing the return statement'` naming the offending
preprocessor. -/
theorem run_preprocessors_none_aborts (pre : List (String × (Ctx → Option Ctx)))
    (nm : String) (f : Ctx → Option Ctx)
    (post : List (String × (Ctx → Option Ctx))) (c c2 : Ctx)
    (hpre : run_preprocessors pre c = Except.ok c2) (hf : f c2 = none) :
    run_preprocessors (pre ++ (nm, f) :: post) c
      = Except.error (nm ++ " is missing the return statement") := by
  induction pre generalizing c with
  | nil =>
    injection hpre with h
    subst h
    simp only [List.nil_append, run_preprocessors, hf]
  | cons p pre ih =>
    obtain ⟨n0, f0⟩ := p
    simp only [run_preprocessors] at hpre
    simp only [List.cons_append, run_preprocessors]
    cases hf0 : f0 c with
    | none =>
      rw [hf0] at hpre
      exact Except.noConfusion hpre
    | some c1 =>
      rw [hf0] at hpre
      exact ih c1 hpre

/-- Witness for the amended C5: after one well-behaved step, a step
returning `None` aborts with the diagnostic naming it. -/
theorem run_preprocessors_none_aborts_witness :
    run_preprocessors [okStep, badStep] [("k", "v")]
      = Except.error "bad_step is missing the return statement" := by
  exact run_preprocessors_none_aborts [okStep] "bad_step" badStep.2 [] [("k", "v")]
    [("k", "v")] rfl rfl

/-- Claim C6: `main` is declared `-> int` and the entry point calls
`sys.exit(main(...))`, but the function body has no return statement:
every completed run returns `None`, and `sys.exit(None)` exits with
status 0 — the driver cannot signal failure through its return
value. -/
theorem pysuergaMain_returns_none (ignore : List String) (md render : String → String)
    (files : List (String × String)) :
    (pysuergaMain ignore md render files).2 = none ∧
    sysExitCode (pysuergaMain ignore md render files).2 = 0 :=
  ⟨rfl, rfl⟩

/-- Skipping or processing the head never loses an output produced by
the rest of the file list. -/
theorem processFiles_cons_mem (ignore : List String) (md render : String → String)
    (p c : String) (rest : List (String × String)) (x : String × String)
    (hx : x ∈ processFiles ignore md render rest) :
    x ∈ processFiles ignore md render ((p, c) :: rest) := by
  unfold processFiles
  by_cases hpig : p ∈ ignore
  · rw [if_pos hpig]
    exact hx
  · rw [if_neg hpig]
    by_cases hext : (splitext p).2 = ".html" ∨ (splitext p).2 = ".md"
    · rw [if_pos hext]
      exact List.mem_cons_of_mem _ hx
    · rw [if_neg hext]
      exact List.mem_cons_of_mem _ hx

/-- Claim C8: a source file whose extension is neither `.html` nor
`.md` and whose walked path is not in the ignore list is copied: the
output holds the same content at the same relative path. -/
theorem processFiles_copies (ignore : List String) (md render : String → String)
    (files : List (String × String)) (fname content : String)
    (hmem : (fname, content) ∈ files) (hig : fname ∉ ignore)
    (hhtml : (splitext fname).2 ≠ ".html") (hmd : (splitext fname).2 ≠ ".md") :
    (fname, content) ∈ processFiles ignore md render files := by
  induction files with
  | nil => cases hmem
  | cons hd rest ih =>
    obtain ⟨p, c⟩ := hd
    cases hmem with
    | head =>
      unfold processFiles
      rw [if_neg hig]
      rw [if_neg (show ¬((splitext fname).2 = ".html" ∨ (splitext fname).2 = ".md") by
        intro h
        cases h with
        | inl h => exact hhtml h
        | inr h => exact hmd h)]
      exact List.mem_cons_self _ _
    | tail _ hrest =>
      exact processFiles_cons_mem ignore md render p c rest _ (ih hrest)

/-- Witness for C8: a `.png` next to an unrelated ignore entry is
copied byte-for-byte. -/
theorem processFiles_copies_witness :
    (("./logo.png", "png-bytes") : String × String)
      ∈ processFiles ["./secret.txt"] id id
          [("./index.md", "hello"), ("./logo.png", "png-bytes")] := by
  exact processFiles_copies ["./secret.txt"] id id
    [("./index.md", "hello"), ("./logo.png", "png-bytes")] "./logo.png" "png-bytes"
    (by decide) (by decide) (by decide) (by decide)

/-- Claim C9: a non-ignored `.html` source file is rendered through the
templating engine and written at its stem with the `.html` extension;
a non-ignored `.md` source file is first converted to HTML, wrapped
in the fixed `layout.html` template reference, then rendered, and is
also written at its stem with the `.html` extension. -/
theorem processFiles_renders (ignore : List String) (md render : String → String)
    (files : List (String × String)) (fname content : String)
    (hmem : (fname, content) ∈ files) (hig : fname ∉ ignore) :
    ((splitext fname).2 = ".html" →
        ((splitext fname).1 ++ ".html", render content)
          ∈ processFiles ignore md render files) ∧
    ((splitext fname).2 = ".md" →
        ((splitext fname).1 ++ ".html", render (layoutWrap (md content)))
          ∈ processFiles ignore md render files) := by
  induction files with
  | nil => cases hmem
  | cons hd rest ih =>
    obtain ⟨p, c⟩ := hd
    cases hmem with
    | head =>
      constructor
      · intro hhtml
        unfold processFiles
        rw [if_neg hig, if_pos (Or.inl hhtml)]
        rw [if_neg (show ¬(splitext fname).2 = ".md" by rw [hhtml]; decide)]
        exact List.mem_cons_self _ _
      · intro hmd
        unfold processFiles
        rw [if_neg hig, if_pos (Or.inr hmd), if_pos hmd]
        exact List.mem_cons_self _ _
    | tail _ hrest =>
      have ihr := ih hrest
      constructor
      · intro hhtml
        exact processFiles_cons_mem ignore md render p c rest _ (ihr.1 hhtml)
      · intro hmd
        exact processFiles_cons_mem ignore md render p c rest _ (ihr.2 hmd)

/-- Witness for C9: `./index.md` renders through the layout wrapper
to `./index.html`. -/
theorem processFiles_renders_witness :
    (("./index.html", layoutWrap "hello") : String × String)
      ∈ processFiles ["./secret.txt"] id id [("./index.md", "hello")] := by
  exact (processFiles_renders ["./secret.txt"] id id [("./index.md", "hello")]
    "./index.md" "hello" (by decide) (by decide)).2 (by decide)

/-- Claim C10: a file that sits directly in the source root is walked
with relative directory `'.'` and hence yielded as `'./' ++ fname`;
that path never equals the bare `fname`, so an ignore entry holding
just the bare filename does not exclude the file — the loop still
processes it (one output is produced). -/
theorem get_source_files_root_dot (walk : List (List String × List String))
    (files : List String) (f : String) (hw : ([], files) ∈ walk) (hf : f ∈ files)
    (c : String) (md render : String → String) :
    ("./" ++ f) ∈ get_source_files walk ∧
    ("./" ++ f) ≠ f ∧
    (processFiles [f] md render [("./" ++ f, c)]).length = 1 := by
  have hne : ("./" ++ f) ≠ f := by
    intro h
    have hl := congrArg String.length h
    rw [String.length_append] at hl
    have h2 : ("./" : String).length = 2 := rfl
    omega
  refine ⟨?_, hne, ?_⟩
  · unfold get_source_files
    rw [List.mem_flatMap]
    refine ⟨([], files), hw, ?_⟩
    rw [List.mem_map]
    exact ⟨f, hf, rfl⟩
  · unfold processFiles
    rw [if_neg (show ¬("./" ++ f) ∈ [f] by rw [List.mem_singleton]; exact hne)]
    by_cases hext : (splitext ("./" ++ f)).2 = ".html" ∨ (splitext ("./" ++ f)).2 = ".md"
    · rw [if_pos hext]
      simp [processFiles]
    · rw [if_neg hext]
      simp [processFiles]

/-- Witness for C10: `index.md` in the source root is yielded as
`./index.md`, which the bare ignore entry `index.md` fails to match. -/
theorem get_source_files_root_dot_witness :
    ("./index.md" : String) ∈ get_source_files [([], ["index.md"])] ∧
    ("./index.md" : String) ≠ "index.md" ∧
    (processFiles ["index.md"] id id [("./index.md", "x")]).length = 1 := by
  exact get_source_files_root_dot [([], ["index.md"])] ["index.md"] "index.md"
    (List.mem_singleton.mpr rfl) (List.mem_singleton.mpr rfl) "x" id id

end Pysuerga
